import Mathlib

/-!
# Verification of the financeghost front-end against its specification

Shallow embedding, in Lean 4, of the client-local logic of the
financeghost single-page dashboard:

* the GhostTerminal agent-log WebSocket viewer (rolling 200-entry buffer,
  "active agents" string heuristic, fixed-delay reconnect loop);
* the Ops Intelligence page (urgent-item resolution with celebration,
  Promise.all page load);
* the Audit page (query parameters of the audit-pack download);
* the Vendors and Invoices pages (Promise.all load, copy-to-clipboard
  indicator, invoice search/status filter, errors_json/items_json parsers).

Pure functions are translated directly; React state updates become explicit
state passing; the browser event loop (setTimeout scheduling) becomes
explicit bookkeeping of pending timer fire times.  Browser platform APIs
(WebSocket construction, JSON.parse, clipboard) are treated as external:
they appear as abstract inputs or as event counters, never as re-implemented
logic, matching the repository specification which places them out of scope.

The file is organised as definitions first (all translated from the source),
then the supporting lemmas and the claim theorems.
-/

namespace FinanceGhost

/-! ## Definitions: GhostTerminal log buffer

Source: the GhostTerminal component.  A log entry carries `timestamp`,
`agent`, `message`, `level` (all strings).  The `ws.onmessage` handler:

* `history` message: `setLogs(data.logs || [])` — replaces the buffer;
* `log` message: `setLogs((prev) => [...prev.slice(-199), log])` — keeps the
  last 199 entries of the previous buffer and appends the new entry.

`processing_start` / `processing_complete` messages append a SYSTEM entry
through `addSystemLog`, which uses the same `[...prev.slice(-199), entry]`
shape; they do not touch the buffer claims modelled here. -/

structure LogEntry where
  timestamp : String
  agent : String
  message : String
  level : String
deriving DecidableEq

/-- A WebSocket message relevant to the log buffer: `history` carries a full
replacement list, `log` carries one new entry. -/
inductive WsMsg where
  | history (logs : List LogEntry)
  | log (entry : LogEntry)

/-- JavaScript `arr.slice(-n)` for `n ≥ 1`: the last `n` elements of the
array (the whole array when it is shorter than `n`). -/
def sliceLast (n : Nat) (l : List α) : List α := l.drop (l.length - n)

/-- One step of the `ws.onmessage` handler, restricted to the buffer state:
`history` replaces the buffer, `log` appends after trimming to the last
199 entries (`[...prev.slice(-199), log]`). -/
def stepLogs (buf : List LogEntry) : WsMsg → List LogEntry
  | .history ls => ls
  | .log e => sliceLast 199 buf ++ [e]

/-- The buffer after a sequence of WebSocket messages. -/
def runLogs (buf : List LogEntry) (msgs : List WsMsg) : List LogEntry :=
  msgs.foldl stepLogs buf

/-! ## Definitions: GhostTerminal active-agent tracking

Source: the `log` branch of `ws.onmessage`.  The handler first tests
`log.message.includes("Starting")` and adds `log.agent` to the `activeAgents`
set; otherwise (`else if`) it tests for "complete" or
"Complete" and deletes `log.agent` from the set.  JavaScript
`String.prototype.includes` is exact (case-sensitive) substring containment,
modelled below on character lists.  `new Set([...prev, agent])` keeps the
existing elements in order and appends `agent` if absent; `delete` removes
the element. -/

/-- Whether `p` is an initial segment of `s` (character-by-character). -/
def startsWithL : List Char → List Char → Bool
  | _, [] => true
  | [], _ :: _ => false
  | c :: cs, p :: ps => c == p && startsWithL cs ps

/-- Exact substring containment on character lists: JavaScript
`s.includes(p)`. -/
def containsL (s p : List Char) : Bool :=
  match s with
  | [] => startsWithL [] p
  | _ :: cs => startsWithL s p || containsL cs p

/-- `s.includes(p)` on strings. -/
def includesStr (s p : String) : Bool := containsL s.toList p.toList

/-- `new Set([...prev, agent])`: unchanged when present, appended when
absent. -/
def insertAgent (a : String) (l : List String) : List String :=
  if l.contains a then l else l ++ [a]

/-- The active-agent update performed for one `log` message (the state change
applied to `activeAgents`; the `processingStartRef` timing side effects are
not part of the set). -/
def stepActive (active : List String) (e : LogEntry) : List String :=
  if includesStr e.message "Starting" then insertAgent e.agent active
  else if includesStr e.message "complete" || includesStr e.message "Complete" then
    active.filter (fun a => a != e.agent)
  else active

/-! ## Definitions: GhostTerminal connection lifecycle

Source: the `connect` closure of the GhostTerminal effect, its `ws.onclose`
handler and the effect cleanup.

* `connect` runs `new WebSocket(wsUrl)` unconditionally — it contains no
  mounted-ness check.  We count socket constructions.
* `ws.onclose` runs `setTimeout(connect, 3000)` unconditionally — one more
  pending timer with the fixed literal delay 3000, regardless of how many
  reconnections have already happened.
* the effect cleanup only calls `wsRef.current.close()`; it does not clear
  any pending timer (`pendingDelays` is untouched).
* when a pending timer fires, the event loop runs its callback `connect`,
  which constructs a new socket. -/

structure TermConnState where
  socketsCreated : Nat
  pendingDelays : List Nat
  mounted : Bool
deriving DecidableEq

/-- The literal delay of `setTimeout(connect, 3000)` in `ws.onclose`. -/
def reconnectDelayMs : Nat := 3000

/-- The `connect` closure: constructs a WebSocket, unconditionally. -/
def connect (s : TermConnState) : TermConnState :=
  { s with socketsCreated := s.socketsCreated + 1 }

/-- `ws.onclose`: schedules `connect` after the fixed 3000 ms delay. -/
def wsOnClose (s : TermConnState) : TermConnState :=
  { s with pendingDelays := s.pendingDelays ++ [reconnectDelayMs] }

/-- The effect cleanup on unmount: closes the current socket only; pending
reconnect timers are left in place. -/
def effectCleanup (s : TermConnState) : TermConnState :=
  { s with mounted := false }

/-- The event loop fires the oldest pending reconnect timer: its callback is
`connect`, which runs with no guard. -/
def fireReconnect (s : TermConnState) : TermConnState :=
  match s.pendingDelays with
  | [] => s
  | _ :: rest => connect { s with pendingDelays := rest }

/-- One disconnect-then-timer-fires cycle of the reconnect loop. -/
def closeFireCycle (s : TermConnState) : TermConnState :=
  fireReconnect (wsOnClose s)

/-! ## Definitions: Ops Intelligence urgent items and page load

Source: `OpsIntelligencePage`.  `handleResolveItem` filters the resolved id
out of `urgentItems` and calls `triggerCelebration()` exactly when
`newItems.length === 0 && prev.length > 0`.  `loadData` awaits
`Promise.all([getMonthEndDashboard(), getDailyBriefing(), getUrgentItems()])`
and applies all three setters only after all three resolve; a single
rejection jumps to the catch block, which sets the generic error message and
leaves the data fields untouched. -/

structure UrgentItem where
  id : String
  client_name : String
  title : String
  description : String
  priority_score : Nat
  deadline : Option String
  suggested_action : String
deriving DecidableEq

/-- `handleResolveItem`: the new list and whether `triggerCelebration()` was
invoked by this call. -/
def handleResolveItem (idv : String) (prev : List UrgentItem) :
    List UrgentItem × Bool :=
  let newItems := prev.filter (fun it => it.id != idv)
  (newItems, newItems.length == 0 && decide (0 < prev.length))

/-- The literal error message of the `loadData` catch block. -/
def opsFailMsg : String := "Failed to load data. Is the backend running?"

/-- Whether a fetch result is a rejection. -/
def isErr {ε α : Type} : Except ε α → Bool
  | .error _ => true
  | .ok _ => false

/-- The view state of `OpsIntelligencePage` touched by `loadData`. -/
structure OpsState (δ β : Type) where
  dashboard : Option δ
  briefing : Option β
  urgentItems : List UrgentItem
  error : Option String
  loading : Bool

/-- `loadData`: `Promise.all` applies the three setters only when all three
requests succeed; any rejection jumps to `catch`, which sets the generic
message. `finally` clears the loading flag in both cases. -/
def loadOpsData {δ β : Type} (rd : Except String δ) (rb : Except String β)
    (ru : Except String (List UrgentItem)) (st : OpsState δ β) : OpsState δ β :=
  match rd, rb, ru with
  | .ok d, .ok b, .ok u =>
    { dashboard := some d, briefing := some b, urgentItems := u,
      error := none, loading := false }
  | _, _, _ => { st with error := some opsFailMsg, loading := false }

/-- The view state of `VendorsPage` touched by `fetchData`. -/
structure VendorsState (α ν : Type) where
  analysis : Option α
  opportunities : List ν
  loading : Bool

/-- `VendorsPage.fetchData`: `Promise.all` of the analysis and negotiations
requests; a rejection only logs to the console (silent omission) and clears
the loading flag. -/
def loadVendorsData {α ν : Type} (ra : Except String α)
    (ro : Except String (List ν)) (st : VendorsState α ν) : VendorsState α ν :=
  match ra, ro with
  | .ok a, .ok o => { analysis := some a, opportunities := o, loading := false }
  | _, _ => { st with loading := false }

/-! ## Definitions: Audit pack download parameters

Source: `AuditPage.downloadAuditPack`.

```
const params: any = {};
if (startDate) params.start_date = startDate;
if (endDate) params.end_date = endDate;
```

The empty string is falsy in JavaScript, so each parameter is attached
independently, exactly when its own date is non-empty. -/

structure AuditParams where
  start_date : Option String
  end_date : Option String
deriving DecidableEq

/-- The query parameters sent by `downloadAuditPack` for given date-input
states. -/
def buildAuditParams (startDate endDate : String) : AuditParams :=
  { start_date := if startDate == "" then none else some startDate,
    end_date := if endDate == "" then none else some endDate }

/-! ## Definitions: copy-to-clipboard indicator

Source: `copyToClipboard` in `VendorsPage` and `InvoicesPage` (identical):

```
navigator.clipboard.writeText(text);
setCopied(true);
setTimeout(() => setCopied(false), 2000);
```

Each copy click at time `c` writes `copied := true` at `c` and schedules a
write `copied := false` at `c + 2000`; earlier timers are never cancelled.
On the single-threaded event loop the indicator at time `t` is the value of
the latest write at or before `t`.  `copiedAt` evaluates that timeline for a
given list of copy-click times (write-time ties do not occur in any theorem
below). -/

/-- The literal delay of `setTimeout(() => setCopied(false), 2000)`. -/
def revertDelayMs : Nat := 2000

/-- The `copied` indicator at time `t`, given the times of the copy clicks:
the latest `setCopied(true)` (a click) wins against the latest
`setCopied(false)` (a fired revert timer). -/
def copiedAt (copies : List Nat) (t : Nat) : Bool :=
  match (copies.filter (fun c => decide (c ≤ t))).max?,
      ((copies.map (fun c => c + revertDelayMs)).filter (fun c => decide (c ≤ t))).max? with
  | none, _ => false
  | some _, none => true
  | some a, some b => decide (b < a)

/-! ## Definitions: invoice detail parsers and table filter

Source: `InvoicesPage`.  `parseErrors` / `parseItems` wrap `JSON.parse` in
`try { ... } catch { return [] }` and return the parsed value exactly when
`Array.isArray` holds, the empty array otherwise.  `JSON.parse` itself is a
browser builtin (out of scope for this repository), modelled as an abstract
fallible parse function into a JSON value tree. -/

/-- A JavaScript JSON value. -/
inductive Js where
  | null
  | bool (b : Bool)
  | num (n : Int)
  | str (s : String)
  | arr (elems : List Js)
  | obj (fields : List (String × Js))

/-- `Array.isArray`. -/
def isArr : Js → Bool
  | .arr _ => true
  | _ => false

/-- `parseErrors(errorsJson)`: `[]` when `JSON.parse` throws or when the
parsed value is not an array, otherwise the parsed array. -/
def parseErrors (jsonParse : String → Except String Js) (errorsJson : String) :
    List Js :=
  match jsonParse errorsJson with
  | .error _ => []
  | .ok parsed => match parsed with
    | .arr xs => xs
    | _ => []

/-- `parseItems(itemsJson)`: same shape as `parseErrors`. -/
def parseItems (jsonParse : String → Except String Js) (itemsJson : String) :
    List Js :=
  match jsonParse itemsJson with
  | .error _ => []
  | .ok parsed => match parsed with
    | .arr xs => xs
    | _ => []

/-- The fields of an invoice row read by the table filter
(`invoice_number` and `vendor_name` are nullable in the backend DTO;
monetary display fields are not read by the filter and are omitted). -/
structure Invoice where
  id : Nat
  invoice_number : Option String
  vendor_name : Option String
  status : String
deriving DecidableEq

/-- `s.toLowerCase()`, character by character. -/
def lowerChars (s : String) : List Char := s.toList.map Char.toLower

/-- `matchesSearch`: optional chaining makes a null field contribute a falsy
value, so a null `invoice_number` / `vendor_name` never matches, for any
search text. -/
def matchesSearch (inv : Invoice) (search : String) : Bool :=
  (match inv.invoice_number with
   | none => false
   | some s => containsL (lowerChars s) (lowerChars search))
  ||
  (match inv.vendor_name with
   | none => false
   | some s => containsL (lowerChars s) (lowerChars search))

/-- `matchesStatus`: the filter value `"all"` matches every status. -/
def matchesStatus (inv : Invoice) (statusFilter : String) : Bool :=
  statusFilter == "all" || inv.status == statusFilter

/-- `filteredInvoices`: the conjunction of the two tests. -/
def filteredInvoices (invoices : List Invoice) (search statusFilter : String) :
    List Invoice :=
  invoices.filter (fun inv => matchesSearch inv search && matchesStatus inv statusFilter)

/-! ## Lemmas about the log buffer -/

theorem sliceLast_of_le {n : Nat} {l : List α} (h : l.length ≤ n) :
    sliceLast n l = l := by
  unfold sliceLast
  rw [Nat.sub_eq_zero_of_le h, List.drop_zero]

theorem length_sliceLast (n : Nat) (l : List α) :
    (sliceLast n l).length = l.length - (l.length - n) := by
  simp [sliceLast]

theorem sliceLast_drop_front {n : Nat} (w v : List α) (h : n ≤ v.length) :
    sliceLast n (w ++ v) = sliceLast n v := by
  unfold sliceLast
  have harith : (w ++ v).length - n = w.length + (v.length - n) := by
    simp only [List.length_append]; omega
  rw [harith, List.drop_append]

theorem sliceLast_append (n : Nat) (x y : List α) :
    sliceLast n (sliceLast n x ++ y) = sliceLast n (x ++ y):= by
  rcases Nat.le_total x.length n with h | h
  · rw [sliceLast_of_le h]
  · have hx : x.take (x.length - n) ++ x.drop (x.length - n) = x :=
      List.take_append_drop _ x
    have hlen : (x.drop (x.length - n)).length = n := by
      rw [List.length_drop]; omega
    calc sliceLast n (sliceLast n x ++ y)
        = sliceLast n (x.drop (x.length - n) ++ y) := rfl
      _ = sliceLast n (x.take (x.length - n) ++ (x.drop (x.length - n) ++ y)) :=
          (sliceLast_drop_front _ _ (by rw [List.length_append, hlen]; omega)).symm
      _ = sliceLast n (x ++ y) := by rw [← List.append_assoc, hx]

/-- Each `log` step is exactly "append, then keep the most recent 200". -/
theorem stepLogs_log_eq (b : List LogEntry) (e : LogEntry) :
    stepLogs b (.log e) = sliceLast 200 (b ++ [e]) := by
  unfold stepLogs sliceLast
  have harith : (b ++ [e]).length - 200 = b.length - 199 := by
    simp only [List.length_append, List.length_cons, List.length_nil]; omega
  rw [harith]
  rcases Nat.le_total b.length 199 with h | h
  · rw [Nat.sub_eq_zero_of_le h, List.drop_zero, List.drop_zero]
  · rw [List.drop_append_of_le_length (by omega)]

/-- A nonempty run of `log` messages leaves exactly the most recent 200
entries of the appended stream. -/
theorem runLogs_logs (ls : List LogEntry) (b : List LogEntry) (e : LogEntry) :
    runLogs b ((e :: ls).map .log) = sliceLast 200 (b ++ e :: ls) := by
  induction ls generalizing b e with
  | nil =>
      simp only [List.map_cons, List.map_nil, runLogs, List.foldl_cons, List.foldl_nil]
      exact stepLogs_log_eq b e
  | cons e' ls' ih =>
      have hstep : runLogs b ((e :: e' :: ls').map .log)
          = runLogs (stepLogs b (.log e)) ((e' :: ls').map .log) := by
        simp [runLogs]
      rw [hstep, ih, stepLogs_log_eq, sliceLast_append]
      simp [List.append_assoc]

/-! ## Lemmas about the active-agent set -/

theorem mem_insertAgent (a : String) (l : List String) : a ∈ insertAgent a l := by
  unfold insertAgent
  by_cases h : l.contains a
  · rw [if_pos h]; exact List.elem_iff.mp h
  · rw [if_neg h]; exact List.mem_append_right l (List.mem_singleton.mpr rfl)

/-! ## Claim theorems -/

/-- C1: after a `history` message carrying any `N` entries followed by 205
`log` messages, the visible buffer is exactly the most recent 200 entries of
the arrival stream, in arrival order (and has length 200); moreover every
`log` message appends its entry with the oldest entries beyond 200 trimmed,
and every `history` message replaces the entire buffer with the received
entries. -/
theorem claim_C1_log_buffer (buf hist ls : List LogEntry) (h205 : ls.length = 205) :
    (runLogs buf (.history hist :: ls.map .log) = sliceLast 200 (hist ++ ls)
      ∧ (runLogs buf (.history hist :: ls.map .log)).length = 200)
    ∧ (∀ (b : List LogEntry) (e : LogEntry), stepLogs b (.log e) = sliceLast 200 (b ++ [e]))
    ∧ (∀ (b hs : List LogEntry), stepLogs b (.history hs) = hs) := by
  have key : runLogs buf (.history hist :: ls.map .log) = sliceLast 200 (hist ++ ls) := by
    cases ls with
    | nil => simp at h205
    | cons e rest =>
        have hrepl : runLogs buf (.history hist :: (e :: rest).map .log)
            = runLogs hist ((e :: rest).map .log) := by simp [runLogs, stepLogs]
        rw [hrepl, runLogs_logs]
  refine ⟨⟨key, ?_⟩, fun b e => stepLogs_log_eq b e, fun b hs => rfl⟩
  rw [key, length_sliceLast, List.length_append, h205]
  omega

/-- A concrete log entry used to instantiate the C1 scenario. -/
def wEntry : LogEntry :=
  ⟨"2024-01-01T00:00:00Z", "invoice_agent", "Processing invoice", "info"⟩

/-- Witness for C1 at a concrete input: empty history followed by 205
identical `log` messages. -/
theorem claim_C1_log_buffer_witness :
    (List.replicate 205 wEntry).length = 205
    ∧ runLogs [] (.history [] :: (List.replicate 205 wEntry).map .log)
        = sliceLast 200 ([] ++ List.replicate 205 wEntry) :=
  ⟨List.length_replicate 205 wEntry, (claim_C1_log_buffer [] [] _ (List.length_replicate 205 wEntry)).1.1⟩

/-- A log message whose text contains both "Starting" and "complete": the
handler tests "Starting" first, so the agent is not removed. -/
def c2Entry : LogEntry :=
  ⟨"10:00:00", "tax_agent", "Starting revalidation because first pass complete", "info"⟩

/-- C2 counterexample: a subsequent log message for an active agent whose
text contains "complete" does **not** always remove the agent — when the
text also contains "Starting" the `else if` never runs and the agent stays
active. -/
theorem claim_C2_counterexample :
    includesStr c2Entry.message "complete" = true
    ∧ stepActive ["tax_agent"] c2Entry = ["tax_agent"]
    ∧ "tax_agent" ∈ stepActive ["tax_agent"] c2Entry := by
  refine ⟨by decide, by decide, by decide⟩

/-- C2 (amended): a `log` message containing "Starting" adds the agent; a
message containing "complete" or "Complete" **and not containing
"Starting"** removes it; a message containing none of the three substrings
(such as the case-mismatched "COMPLETED") leaves the set unchanged. -/
theorem claim_C2_active_set (active : List String) (e : LogEntry) :
    (includesStr e.message "Starting" = true → e.agent ∈ stepActive active e)
    ∧ (includesStr e.message "Starting" = false →
        (includesStr e.message "complete" = true ∨ includesStr e.message "Complete" = true) →
        e.agent ∉ stepActive active e)
    ∧ (includesStr e.message "Starting" = false →
        includesStr e.message "complete" = false →
        includesStr e.message "Complete" = false →
        stepActive active e = active) := by
  refine ⟨?_, ?_, ?_⟩
  · intro h
    simp only [stepActive, h, if_true]
    exact mem_insertAgent e.agent active
  · intro h1 h2
    have hor : (includesStr e.message "complete" || includesStr e.message "Complete") = true := by
      rcases h2 with h | h <;> simp [h]
    simp only [stepActive, h1, hor, Bool.false_eq_true, if_false, if_true]
    simp [List.mem_filter]
  · intro h1 h2 h3
    simp [stepActive, h1, h2, h3]

/-- A log message with the case-mismatched "COMPLETED" only. -/
def c2Completed : LogEntry :=
  ⟨"10:05:00", "invoice_agent", "Invoice extraction COMPLETED", "info"⟩

/-- Witness for the amended C2: "COMPLETED" (neither "complete" nor
"Complete" nor "Starting") leaves the active set unchanged. -/
theorem claim_C2_active_set_witness :
    stepActive ["invoice_agent"] c2Completed = ["invoice_agent"] :=
  (claim_C2_active_set ["invoice_agent"] c2Completed).2.2 (by decide) (by decide) (by decide)

/-- C3 (evidence of the code bug): starting from a mounted viewer with one
socket, after `ws.onclose` schedules the reconnect and the viewer unmounts
during the delay, the timer still fires and `connect` creates a second
WebSocket — the cleanup never cancels the pending timer. -/
theorem claim_C3_reconnect_after_unmount :
    (effectCleanup (wsOnClose ⟨1, [], true⟩)).mounted = false
    ∧ (effectCleanup (wsOnClose ⟨1, [], true⟩)).pendingDelays = [reconnectDelayMs]
    ∧ (fireReconnect (effectCleanup (wsOnClose ⟨1, [], true⟩))).socketsCreated = 2 := by
  refine ⟨rfl, rfl, rfl⟩

/-- Each disconnect-then-fire cycle performs exactly one new connection. -/
theorem closeFireCycle_sockets (t : TermConnState) :
    (closeFireCycle t).socketsCreated = t.socketsCreated + 1 := by
  unfold closeFireCycle fireReconnect
  split
  next heq => simp [wsOnClose] at heq
  next d rest heq => simp [connect, wsOnClose]

/-- C4: every `ws.onclose` schedules exactly one reconnect with the fixed
3000 ms delay — the delay is the same constant at every attempt (no backoff
growth) — and for every `n` the `n`-th disconnect is followed by a
reconnection (no maximum retry count: the number of connections grows
unboundedly with the number of disconnect cycles). -/
theorem claim_C4_reconnect_policy (s : TermConnState) (n : Nat) :
    (wsOnClose s).pendingDelays = s.pendingDelays ++ [reconnectDelayMs]
    ∧ reconnectDelayMs = 3000
    ∧ (closeFireCycle^[n] s).socketsCreated = s.socketsCreated + n := by
  refine ⟨rfl, rfl, ?_⟩
  induction n with
  | zero => simp
  | succ k ih =>
      rw [Function.iterate_succ_apply', closeFireCycle_sockets, ih]
      omega

/-- C5: resolving the last remaining item of a non-empty urgent list yields
the empty list and triggers the celebration (exactly one trigger from this
call); resolving on an already-empty list does not trigger it; a resolve
that leaves other items in the list does not trigger it. -/
theorem claim_C5_celebration (prev : List UrgentItem) (idv : String) :
    (prev ≠ [] → (∀ it ∈ prev, it.id = idv) → handleResolveItem idv prev = ([], true))
    ∧ handleResolveItem idv [] = ([], false)
    ∧ ((handleResolveItem idv prev).1 ≠ [] → (handleResolveItem idv prev).2 = false) := by
  refine ⟨?_, rfl, ?_⟩
  · intro hne hall
    have hfilter : prev.filter (fun it => it.id != idv) = [] := by
      rw [List.filter_eq_nil_iff]
      intro a ha
      simp [hall a ha]
    have hpos : 0 < prev.length := List.length_pos.mpr hne
    simp [handleResolveItem, hfilter, hpos]
  · intro hne
    have hne' : prev.filter (fun it => it.id != idv) ≠ [] := hne
    have hlen : ((prev.filter (fun it => it.id != idv)).length == 0) = false := by
      rw [beq_eq_false_iff_ne]
      intro h0
      exact hne' (List.length_eq_zero.mp h0)
    show ((prev.filter (fun it => it.id != idv)).length == 0 && decide (0 < prev.length)) = false
    rw [hlen, Bool.false_and]

/-- A concrete urgent item. -/
def wItem : UrgentItem :=
  ⟨"U1", "Acme Traders", "File GSTR-1", "Deadline approaching", 85,
    some "2024-02-10", "File today"⟩

/-- Witness for C5: resolving the only item of a singleton list empties it
and triggers the celebration. -/
theorem claim_C5_celebration_witness :
    handleResolveItem "U1" [wItem] = ([], true) :=
  (claim_C5_celebration [wItem] "U1").1 (by decide) (by decide)

/-- C6 counterexample: with a non-empty start date and an empty end date the
request still carries `start_date`, so the parameters are not sent "only when
both dates are non-empty". -/
theorem claim_C6_counterexample :
    ¬ (∀ s e : String,
        ((buildAuditParams s e).start_date ≠ none ∨ (buildAuditParams s e).end_date ≠ none) →
        (s ≠ "" ∧ e ≠ "")) := by
  intro hcl
  have hinst := hcl "2024-01-01" "" (Or.inl (by decide))
  exact hinst.2 rfl

/-- C6 (amended): each of `start_date` / `end_date` is attached exactly when
its own date is a non-empty string, independently of the other; an
empty-string date parameter is never sent. -/
theorem claim_C6_audit_params (s e : String) :
    (buildAuditParams s e).start_date = (if s = "" then none else some s)
    ∧ (buildAuditParams s e).end_date = (if e = "" then none else some e)
    ∧ (buildAuditParams s e).start_date ≠ some ""
    ∧ (buildAuditParams s e).end_date ≠ some "" := by
  by_cases hs : s = "" <;> by_cases he : e = "" <;>
    simp [buildAuditParams, hs, he]

/-- C7: in each `Promise.all` page load (Ops Intelligence: dashboard,
briefing, urgent items; Vendors: analysis, negotiations), one failed request
discards all results of that load: no data field changes, and the
user-visible outcome is the generic failure message (Ops) or silent omission
(Vendors), never a partial update. -/
theorem claim_C7_no_partial_load {δ β α ν : Type}
    (rd : Except String δ) (rb : Except String β)
    (ru : Except String (List UrgentItem)) (st : OpsState δ β)
    (ra : Except String α) (ro : Except String (List ν)) (stv : VendorsState α ν) :
    ((isErr rd || isErr rb || isErr ru) = true →
      (loadOpsData rd rb ru st).dashboard = st.dashboard
      ∧ (loadOpsData rd rb ru st).briefing = st.briefing
      ∧ (loadOpsData rd rb ru st).urgentItems = st.urgentItems
      ∧ (loadOpsData rd rb ru st).error = some opsFailMsg)
    ∧ ((isErr ra || isErr ro) = true →
      loadVendorsData ra ro stv = { stv with loading := false }) := by
  constructor
  · intro h
    cases rd <;> cases rb <;> cases ru <;> simp [loadOpsData] <;> simp [isErr] at h
  · intro h
    cases ra <;> cases ro <;> simp [loadVendorsData] <;> simp [isErr] at h

/-- Witness for C7: a failing dashboard request leaves the previous dashboard
value in place and a failing analysis request leaves the vendors state
unchanged apart from the loading flag. -/
theorem claim_C7_no_partial_load_witness :
    (loadOpsData (Except.error "boom") (Except.ok 0) (Except.ok [])
      (⟨some 7, some 8, [], none, true⟩ : OpsState Nat Nat)).dashboard = some 7
    ∧ loadVendorsData (Except.error "boom") (Except.ok ([] : List Nat))
        (⟨some 3, [], true⟩ : VendorsState Nat Nat) = ⟨some 3, [], false⟩ :=
  ⟨((claim_C7_no_partial_load (Except.error "boom") (Except.ok 0) (Except.ok [])
      (⟨some 7, some 8, [], none, true⟩ : OpsState Nat Nat)
      (Except.error "boom") (Except.ok ([] : List Nat))
      (⟨some 3, [], true⟩ : VendorsState Nat Nat)).1 rfl).1,
   (claim_C7_no_partial_load (Except.error "boom") (Except.ok (0 : Nat)) (Except.ok [])
      (⟨some 7, some 8, [], none, true⟩ : OpsState Nat Nat)
      (Except.error "boom") (Except.ok ([] : List Nat))
      (⟨some 3, [], true⟩ : VendorsState Nat Nat)).2 rfl⟩

/-- C8 counterexample: with copies at 0 ms and 1000 ms (the second issued
before the first 2000 ms elapsed), the indicator is already false at 2500 ms,
i.e. before 2000 ms have elapsed since the latest copy — the first timer is
never cancelled and reverts the indicator early. -/
theorem claim_C8_counterexample :
    copiedAt [0, 1000] 2500 = false
    ∧ 1000 ≤ 2500 ∧ 2500 < 1000 + revertDelayMs := by
  refine ⟨by decide, by decide, by decide⟩

/-- C8 (amended): an isolated copy shows the indicator from the click until
exactly 2000 ms later; but a second copy issued during the window does not
extend it — the uncancelled timer of the first copy still fires 2000 ms after
the first copy and reverts the indicator. -/
theorem claim_C8_copied_indicator (c : Nat) :
    (∀ t, copiedAt [c] t = true ↔ (c ≤ t ∧ t < c + revertDelayMs))
    ∧ (∀ o, c < o → o < c + revertDelayMs →
        copiedAt [c, o] (c + revertDelayMs) = false) := by
  constructor
  · intro t
    by_cases h1 : c ≤ t <;> by_cases h2 : c + revertDelayMs ≤ t <;>
      simp [copiedAt, List.filter, List.max?, h1, h2] <;> omega
  · intro o h1 h2
    have hc : c ≤ c + revertDelayMs := Nat.le_add_right c revertDelayMs
    have ho : o ≤ c + revertDelayMs := Nat.le_of_lt h2
    have hno : ¬ (o + revertDelayMs ≤ c + revertDelayMs) := by omega
    simp [copiedAt, List.filter, List.max?, hc, ho, hno]

/-- Witness for the amended C8: an isolated copy at 5 ms is visible at 5 ms,
and a second copy at 1000 ms does not survive the timer of the first copy at
2000 ms. -/
theorem claim_C8_copied_indicator_witness :
    copiedAt [5] 5 = true ∧ copiedAt [0, 1000] (0 + revertDelayMs) = false :=
  ⟨(claim_C8_copied_indicator 5).1 5 |>.mpr (by decide),
   (claim_C8_copied_indicator 0).2 1000 (by decide) (by decide)⟩

/-- C9: the invoice detail parsers are total (in this embedding they are
plain functions; the `try`/`catch` swallows every `JSON.parse` throw): a
failing parse yields `[]`, a successful parse of a non-array yields `[]`,
and a successful parse of an array yields exactly its elements — for both
`parseErrors` and `parseItems`. -/
theorem claim_C9_parsers (p : String → Except String Js) (s : String) :
    (∀ msg, p s = .error msg → parseErrors p s = [] ∧ parseItems p s = [])
    ∧ (∀ v, p s = .ok v → isArr v = false → parseErrors p s = [] ∧ parseItems p s = [])
    ∧ (∀ xs, p s = .ok (.arr xs) → parseErrors p s = xs ∧ parseItems p s = xs) := by
  refine ⟨?_, ?_, ?_⟩
  · intro msg h
    simp [parseErrors, parseItems, h]
  · intro v h hv
    cases v <;> simp_all [parseErrors, parseItems, isArr]
  · intro xs h
    simp [parseErrors, parseItems, h]

/-- Witness for C9: a parse returning an array yields its elements; a
throwing parse yields the empty list. -/
theorem claim_C9_parsers_witness :
    parseErrors (fun _ => Except.ok (Js.arr [Js.null])) "x" = [Js.null]
    ∧ parseItems (fun _ => Except.error "unexpected token") "not json" = [] :=
  ⟨((claim_C9_parsers (fun _ => Except.ok (Js.arr [Js.null])) "x").2.2 [Js.null] rfl).1,
   ((claim_C9_parsers (fun _ => Except.error "unexpected token") "not json").1
      "unexpected token" rfl).2⟩

/-- C10: membership in the filtered invoice table is the conjunction of a
case-insensitive substring match of the search text against
`invoice_number` or `vendor_name` and the status test (`"all"` matches every
status); an invoice whose `invoice_number` and `vendor_name` are both null
is excluded for every search text, including the empty search. -/
theorem claim_C10_invoice_filter (invoices : List Invoice)
    (search statusFilter : String) (inv : Invoice) :
    (inv ∈ filteredInvoices invoices search statusFilter ↔
      inv ∈ invoices
      ∧ ((∃ s, inv.invoice_number = some s
            ∧ containsL (lowerChars s) (lowerChars search) = true)
         ∨ (∃ s, inv.vendor_name = some s
            ∧ containsL (lowerChars s) (lowerChars search) = true))
      ∧ (statusFilter = "all" ∨ inv.status = statusFilter))
    ∧ (inv.invoice_number = none → inv.vendor_name = none →
        inv ∉ filteredInvoices invoices search statusFilter) := by
  constructor
  · rw [filteredInvoices, List.mem_filter]
    rcases hn : inv.invoice_number with _ | s1 <;>
      rcases hv : inv.vendor_name with _ | s2 <;>
      simp [matchesSearch, matchesStatus, hn, hv]
  · intro h1 h2
    rw [filteredInvoices, List.mem_filter]
    simp [matchesSearch, h1, h2]

/-- An invoice row with both searchable fields null. -/
def wInv : Invoice := ⟨1, none, none, "processed"⟩

/-- Witness for C10: a both-null invoice is excluded even by the empty search
with the `"all"` status filter. -/
theorem claim_C10_invoice_filter_witness :
    wInv ∉ filteredInvoices [wInv] "" "all" :=
  (claim_C10_invoice_filter [wInv] "" "all" wInv).2 rfl rfl

end FinanceGhost
